import Mathlib

/-
Verification of the ainews-assistant newsletter-processing pipeline
(src/backend/processor.py) against its specification.

The development is a shallow embedding of the pipeline's pure control flow:

* the parser's typed segments and the grouping pass `_group_segments`
  (processor.py lines 576-624);
* the batch text-transform helpers `_clean_texts_batch` and
  `_translate_texts_batch` (lines 626-725), with the external Gemini call
  abstracted as an explicit response value;
* the text-preparation phase of `process_group` (lines 182-232);
* the parser's whole-document fallback (lines 567-573);
* the orchestrator `process_newsletter` (lines 73-356) over an explicit
  relational-store state, with the per-group processor abstracted as an
  outcome function (any behaviour of the concurrent group tasks).

Audio-reference fields (audio_url, audio_duration_ms and their _zh variants)
are opaque to every property proved here and are omitted from the records.
-/

set_option maxHeartbeats 1000000

-- ## Definitions (shallow embedding of processor.py)

/-- A hyperlink extracted from a content element: anchor text paired with the
href destination (processor.py lines 556-560; only anchors with an href are
kept there, so `url` is always present). -/
structure Link where
  text : String
  url : String
  deriving DecidableEq, Repr

/-- One parsed content unit (a row of the `segments` collection).  The parser
emits `segment_type` (one of "section_header", "topic_header", "item"),
`content_raw`, `links` and `order_index`.  The clean/translated fields start
unset (`none`); `process_group` assigns them.  For the `_zh` fields, `none`
also represents a per-item translation failure (a JSON `null` from the
transform service), matching the Python `None`. -/
structure Seg where
  segment_type : String
  content_raw : String
  links : List Link
  order_index : Nat
  content_clean : Option String := none
  content_raw_zh : Option String := none
  content_clean_zh : Option String := none
  deriving DecidableEq, Repr

/-- A topic group as built by `_group_segments` (processor.py lines 590-613).
The "General" placeholder group is created in the source without an
`is_section_header` key; every read of that key goes through `.get`, which
treats a missing key as `None`/falsy, so it is modelled as `false`.
`label_zh` is assigned by the group processor (line 222) and read with `.get`
during persistence (line 305), so it defaults to `none`. -/
structure TopicGroup where
  label : String
  segments : List Seg
  order_index : Nat
  is_section_header : Bool
  label_zh : Option String := none
  deriving DecidableEq, Repr

/-- Append a segment to the current group.  In the source the "current group"
is a mutable alias of the most recently appended element of `groups`
(a new group is appended and becomes current at lines 591-599 and 605-613,
and nothing else reassigns it), so `current_group["segments"].append(seg)`
(line 615) mutates the last element of the list. -/
def appendToLast (gs : List TopicGroup) (s : Seg) : List TopicGroup :=
  match gs with
  | [] => []
  | [g] => [{ g with segments := g.segments ++ [s] }]
  | g :: rest => g :: appendToLast rest s

/-- The single linear pass of `_group_segments` (processor.py lines 586-615).
State: the groups built so far (`current_group` is the last element, or
nothing when the list is empty) and the running `group_order` counter. -/
def groupFold : List Seg → List TopicGroup → Nat → List TopicGroup
  | [], gs, _ => gs
  | seg :: rest, gs, order =>
    if seg.segment_type = "topic_header" ∨ seg.segment_type = "section_header" then
      groupFold rest
        (gs ++ [{ label := seg.content_raw, segments := [], order_index := order,
                  is_section_header := seg.segment_type = "section_header" }])
        (order + 1)
    else if seg.segment_type = "item" then
      if gs.isEmpty then
        -- line 603-613: no current group yet, lazily create the "General"
        -- placeholder and attach the item to it
        groupFold rest
          [{ label := "General", segments := [seg], order_index := order,
             is_section_header := false }]
          (order + 1)
      else
        groupFold rest (appendToLast gs seg) order
    else
      groupFold rest gs order

/-- Re-index the `order_index` field to be contiguous from `i`, mirroring
`for i, g in enumerate(groups): g["order_index"] = i` (lines 621-622). -/
def reindexFrom : Nat → List TopicGroup → List TopicGroup
  | _, [] => []
  | i, g :: gs => { g with order_index := i } :: reindexFrom (i + 1) gs

/-- Keep-condition of the post-pass filter (line 618): a group survives iff it
has segments or its section-header flag is set. -/
def keepGroup (g : TopicGroup) : Bool :=
  !g.segments.isEmpty || g.is_section_header

/-- Embeds `_group_segments` (processor.py lines 576-624): the grouping pass, then
the filter that discards empty non-section-header groups, then re-indexing. -/
def _group_segments (segments_data : List Seg) : List TopicGroup :=
  reindexFrom 0 ((groupFold segments_data [] 0).filter keepGroup)

/-- Python slice `groups[:max_groups]` for an arbitrary int bound
(processor.py line 123): a non-negative bound takes that many leading
elements; a negative bound drops that many from the end (clamped at zero). -/
def pySliceTo (k : Int) (l : List α) : List α :=
  if 0 ≤ k then l.take k.toNat else l.take (l.length - (-k).toNat)

/-- Items of a segment list: the sublist the grouping pass attaches to
groups. -/
def itemsOf (segs : List Seg) : List Seg :=
  segs.filter (fun s => s.segment_type == "item")

/-- Outcome of one Gemini call together with the JSON decoding of its response
(processor.py lines 640-655 and 695-707).  `jsonList items` is a successfully
parsed top-level JSON array; an entry is `some s` for a non-null value and
`none` for a JSON `null` (Python `None`, which the source code does not filter
out of a well-shaped response).  `nonList` is parsed JSON that is not an
array, `parseFailure` a `json.JSONDecodeError`, and `callFailure` any other
exception raised by the call.  The markdown-fence stripping of lines 649-653
happens before decoding and is folded into this abstraction. -/
inductive GeminiResult where
  | jsonList (items : List (Option String))
  | nonList
  | parseFailure
  | callFailure
  deriving DecidableEq, Repr

/-- Embeds `_clean_texts_batch` (processor.py lines 626-674): returns the parsed list
when it is a list of the input's length, and the raw input texts whenever the
response is not a list (line 659), has the wrong length (line 662), fails to
decode (line 669) or the call raises (line 672).  In the source the fallback
returns the input `list[str]` itself; the result type here is
`List (Option String)` because a well-shaped JSON response may contain `null`
entries, which the source returns verbatim — the fallback is therefore the
input list with every entry wrapped in `some`. -/
def _clean_texts_batch (texts : List String) (resp : GeminiResult) : List (Option String) :=
  if texts.isEmpty then []
  else
    match resp with
    | .jsonList cleaned =>
      if cleaned.length = texts.length then cleaned else texts.map some
    | _ => texts.map some

/-- Embeds `_translate_texts_batch` (processor.py lines 676-725): like the clean
batch, but every fallback (non-list, wrong length, decode failure, raised
call) yields an all-`None` list of the input's length. -/
def _translate_texts_batch (texts : List String) (resp : GeminiResult) : List (Option String) :=
  if texts.isEmpty then []
  else
    match resp with
    | .jsonList translated =>
      if translated.length = texts.length then translated
      else List.replicate texts.length none
    | _ => List.replicate texts.length none

/-- The per-position restoration of cleaned translated texts (processor.py
lines 204-209): iterate over the translated list, emitting `None` at null
positions and consuming the next cleaned entry at non-null positions.  The
last pattern (a non-null position with the cleaned iterator exhausted) models
the `StopIteration` the source would raise; it is unreachable at the call
site because `_clean_texts_batch` preserves length (`clean_batch_length`),
so the `[]` returned there is arbitrary. -/
def restoreNulls : List (Option String) → List (Option String) → List (Option String)
  | [], _ => []
  | none :: ts, cs => none :: restoreNulls ts cs
  | some _ :: ts, c :: cs => c :: restoreNulls ts cs
  | some _ :: _, [] => []

/-- Lines 199-211 of processor.py: clean the translated Chinese texts for TTS.
`translated.filterMap id` is the comprehension `[t for t in translated_texts
if t is not None]`; when it is non-empty the batch-clean response
(`cleanResp`) is applied to it and the results are mapped back to the
original positions, otherwise the result is all-`None` without a call. -/
def clean_translated_texts (translated : List (Option String)) (cleanResp : GeminiResult) :
    List (Option String) :=
  if (translated.filterMap id).isEmpty then translated.map (fun _ => none)
  else restoreNulls translated (_clean_texts_batch (translated.filterMap id) cleanResp)

/-- Dummy segment used as the (provably in-range, hence irrelevant) default
for `List.getD` indexing in theorem statements; the source raises IndexError
out of range, which cannot happen at the indices used here. -/
def dummySeg : Seg :=
  { segment_type := "", content_raw := "", links := [], order_index := 0 }

/-- The per-segment assignment loop of `process_group` (processor.py lines
224-232): segment number `i` (counter starting at `j`) receives entry
`i + off` of the cleaned, translated and cleaned-translated lists; `off` is
1 when the group label occupies slot 0 of the batch.  The `none` index
default is never reached at the call site because the three lists all have
length `off + segs.length`. -/
def assignTexts (cleaned translated cleanedZh : List (Option String)) (off : Nat) :
    Nat → List Seg → List Seg
  | _, [] => []
  | i, s :: rest =>
    { s with content_clean := cleaned.getD (i + off) none,
             content_raw_zh := translated.getD (i + off) none,
             content_clean_zh := cleanedZh.getD (i + off) none }
      :: assignTexts cleaned translated cleanedZh off (i + 1) rest

/-- The text-preparation phase of `process_group` for an ordinary group
(processor.py lines 182-232): build the batch text list (the label first when
present — Python's `if group["label"]` is emptiness of the string — then each
segment's raw text), batch-clean it, optionally batch-translate it and clean
the non-null translations, then distribute the three lists back onto the
segments by position.  The three external calls are abstracted by their
responses `cleanResp`, `transResp`, `cleanZhResp`; `bilingual` is
`Config.ENABLE_CHINESE_PROCESSING`.  Audio synthesis (lines 234-264) does not
alter any text field and is omitted, as is the group-level `label_zh`
assignment (line 222), which touches no segment. -/
def process_group_texts (label : String) (segs : List Seg) (bilingual : Bool)
    (cleanResp transResp cleanZhResp : GeminiResult) : List Seg :=
  let texts_to_clean :=
    (if label.isEmpty then [] else [label]) ++ segs.map (fun s => s.content_raw)
  let cleaned_texts := _clean_texts_batch texts_to_clean cleanResp
  let translated_texts :=
    if bilingual then _translate_texts_batch texts_to_clean transResp
    else List.replicate texts_to_clean.length none
  let cleaned_zh_texts :=
    if bilingual then clean_translated_texts translated_texts cleanZhResp
    else List.replicate texts_to_clean.length none
  assignTexts cleaned_texts translated_texts cleaned_zh_texts
    (if label.isEmpty then 0 else 1) 0 segs

/-- The no-structure fallback at the end of `_parse_newsletter` (processor.py
lines 567-573), abstracted over the output of the element walk (lines
485-565, `walked`) and the normalized whole-document text of line 569
(`_normalize_extracted_text(article.get_text(" ", strip=True))`).  When the
walk emitted nothing, `add_segment` is called with the first 100 characters
plus "..." as a synthetic section_header and with the full text as an item —
but `add_segment` (lines 465-475) drops empty text, so an empty document
yields no segments at all. -/
def parse_fallback (walked : List Seg) (normText : String) : List Seg :=
  if walked.isEmpty then
    if normText.isEmpty then []
    else
      [{ segment_type := "section_header", content_raw := normText.take 100 ++ "...",
         links := [], order_index := 0 },
       { segment_type := "item", content_raw := normText, links := [], order_index := 1 }]
  else walked

/-- One row of the `issues` collection.  Identifiers are naturals standing in
for UUIDs; the `Store.nextId` counter models both store-generated ids and the
uniqueness of caller-supplied UUIDs.  Timestamps are abstract naturals.
`processed_at` is set only by the completion update (processor.py lines
350-353); the upsert payload carries no such key. -/
structure IssueRow where
  id : Nat
  url : String
  title : String
  published_at : Nat
  processed_at : Option Nat := none
  deriving DecidableEq, Repr

/-- One row of the `topic_groups` collection: the insert payload of
processor.py lines 302-312 plus the store-assigned id returned by the insert
(line 315).  Audio fields are omitted as opaque to every property here. -/
structure GroupRow where
  id : Nat
  issue_id : Nat
  label : String
  label_zh : Option String
  order_index : Nat
  is_section_header : Bool
  deriving DecidableEq, Repr

/-- One row of the `segments` collection: the segment dict itself, mutated
with its owning issue and group identifiers (processor.py lines 334-336). -/
structure SegRow where
  issue_id : Nat
  topic_group_id : Nat
  seg : Seg
  deriving DecidableEq, Repr

/-- The relational store: the three collections plus the fresh-identifier
counter. -/
structure Store where
  issues : List IssueRow
  topic_groups : List GroupRow
  segments : List SegRow
  nextId : Nat
  deriving DecidableEq, Repr

/-- Group rows currently owned by an issue. -/
def groupRowsFor (st : Store) (iid : Nat) : List GroupRow :=
  st.topic_groups.filter (fun g => g.issue_id == iid)

/-- Segment rows currently owned by an issue. -/
def segRowsFor (st : Store) (iid : Nat) : List SegRow :=
  st.segments.filter (fun s => s.issue_id == iid)

/-- The fields of a group row that come from the processed group (everything
except the store-assigned id and the owning issue id). -/
def groupProj (r : GroupRow) : String × Option String × Nat × Bool :=
  (r.label, r.label_zh, r.order_index, r.is_section_header)

/-- The same fields read off a processed `TopicGroup` (the insert payload of
processor.py lines 302-312). -/
def groupVal (g : TopicGroup) : String × Option String × Nat × Bool :=
  (g.label, g.label_zh, g.order_index, g.is_section_header)

/-- Metadata update applied by `upsert(..., on_conflict="url")` to the row
holding the conflicting URL (processor.py lines 101-109): title and
publication timestamp are overwritten; id and processed_at are untouched. -/
def updIssueMeta (title : String) (pub : Nat) (url : String) (r : IssueRow) : IssueRow :=
  if r.url == url then { r with title := title, published_at := pub } else r

/-- Issue-id resolution (processor.py lines 92-110).  With a caller-supplied
id the store is first queried by URL and an existing row's id wins (lines
94-98); otherwise the caller's id goes into the upsert payload and is
inserted.  Without a caller id, the URL-keyed upsert either updates the
existing row (returning its id) or inserts with a store-generated id.
Inserting a caller-supplied id bumps the freshness counter past it,
modelling UUID uniqueness. -/
def resolveIssue (st : Store) (title url : String) (pub : Nat) (issue_id? : Option Nat) :
    Store × Nat :=
  match issue_id? with
  | some iid =>
    match st.issues.find? (fun r => r.url == url) with
    | some existing =>
      ({ st with issues := st.issues.map (updIssueMeta title pub url) }, existing.id)
    | none =>
      ({ st with
          issues := st.issues
            ++ [{ id := iid, url := url, title := title, published_at := pub }],
          nextId := max st.nextId (iid + 1) }, iid)
  | none =>
    match st.issues.find? (fun r => r.url == url) with
    | some existing =>
      ({ st with issues := st.issues.map (updIssueMeta title pub url) }, existing.id)
    | none =>
      ({ st with
          issues := st.issues
            ++ [{ id := st.nextId, url := url, title := title, published_at := pub }],
          nextId := st.nextId + 1 }, st.nextId)

/-- The delete half of the delete-then-reinsert discipline (processor.py
lines 112-114): every segment row of the issue, then every group row, is
removed before any group processing begins.  (The source deletes segments
first only because of the store's foreign-key setting; the model removes
both collections' rows.) -/
def afterDeletes (st : Store) (iid : Nat) : Store :=
  { st with
      segments := st.segments.filter (fun s => !(s.issue_id == iid)),
      topic_groups := st.topic_groups.filter (fun g => !(g.issue_id == iid)) }

/-- Lines 117-123: group the parsed segments, then optionally truncate the
group list to the caller-supplied maximum (`groups[:max_groups]`). -/
def truncatedGroups (max_groups? : Option Int) (segments_data : List Seg) : List TopicGroup :=
  match max_groups? with
  | some k => pySliceTo k (_group_segments segments_data)
  | none => _group_segments segments_data

/-- Successful results of the abstract per-group processor, in submission
order (the `.ok` payloads collected at lines 277-281). -/
def successesOf (outcome : TopicGroup → Except String TopicGroup)
    (gs : List TopicGroup) : List TopicGroup :=
  gs.filterMap (fun g => match outcome g with | .ok g' => some g' | .error _ => none)

/-- Error messages of the failed groups (lines 282-284). -/
def failuresOf (outcome : TopicGroup → Except String TopicGroup)
    (gs : List TopicGroup) : List String :=
  gs.filterMap (fun g => match outcome g with | .ok _ => none | .error e => some e)

/-- Stable insertion into a list sorted by `order_index`. -/
def insertByOrder (g : TopicGroup) : List TopicGroup → List TopicGroup
  | [] => [g]
  | h :: t => if h.order_index < g.order_index then h :: insertByOrder g t else g :: h :: t

/-- Embeds `processed_groups.sort(key=lambda x: x["order_index"])` (line 298).
`asyncio.as_completed` delivers results in nondeterministic completion
order; since every submitted group carries a distinct order_index
(contiguous after re-indexing and truncation) the sorted list is the same
for every completion order, so the model collects successes in submission
order and applies the sort to that list. -/
def sortByOrder (l : List TopicGroup) : List TopicGroup :=
  l.foldr insertByOrder []

/-- The batch group insert and the ids the store assigns to it (lines
302-316): the k-th inserted row receives identifier `nid + k`. -/
def mkGroupRows (iid : Nat) : Nat → List TopicGroup → List GroupRow
  | _, [] => []
  | nid, g :: gs =>
    { id := nid, issue_id := iid, label := g.label, label_zh := g.label_zh,
      order_index := g.order_index, is_section_header := g.is_section_header }
      :: mkGroupRows iid (nid + 1) gs

/-- Embeds the `group_id_map` dict comprehension keyed by order_index
(line 325), read through `.get` (line 330).  A Python dict comprehension
keeps the last entry written for a duplicated key, hence the recursion
consults the tail first. -/
def groupIdMap (rows : List GroupRow) (oi : Nat) : Option Nat :=
  match rows with
  | [] => none
  | r :: rest =>
    match groupIdMap rest oi with
    | some v => some v
    | none => if r.order_index == oi then some r.id else none

/-- Lines 337-339: a segment reaching persistence without an assigned
`content_clean` key receives its raw text.  `process_group` assigns that key
to every segment it returns (line 226), so for real group-processor outcomes
this branch is inert; `none` here stands for the unassigned key (an assigned
Python `None`, possible only through a null entry of a well-shaped clean
response, is represented the same way — no property proved here can tell the
two apart). -/
def persistGuard (s : Seg) : Seg :=
  match s.content_clean with
  | none => { s with content_clean := some s.content_raw }
  | some _ => s

/-- Lines 327-340: attach each successful group's segments to the identifier
found for its order_index, skipping (with a logged error) any group whose
identifier is missing from the map — unreachable here, because every group's
own row is in the map. -/
def buildSegRows (iid : Nat) (idMap : Nat → Option Nat) : List TopicGroup → List SegRow
  | [] => []
  | g :: gs =>
    (match idMap g.order_index with
     | none => []
     | some gid =>
       g.segments.map (fun s => { issue_id := iid, topic_group_id := gid, seg := persistGuard s }))
      ++ buildSegRows iid idMap gs

/-- Lines 300-348: insert the group payload in one batch and then the
attached segments.  The source splits the segment insert into fixed-size
batches (lines 345-347), which inserts the same rows in the same order, so
the model appends them in one step.  Nothing at all is inserted when there
are no processed groups (the `if groups_payload` guard, line 314). -/
def persistAll (st : Store) (iid : Nat) (sorted : List TopicGroup) : Store :=
  if sorted.isEmpty then st
  else
    { st with
        topic_groups := st.topic_groups ++ mkGroupRows iid st.nextId sorted,
        segments := st.segments
          ++ buildSegRows iid (groupIdMap (mkGroupRows iid st.nextId sorted)) sorted,
        nextId := st.nextId + sorted.length }

/-- Lines 350-353: set the issue's completion timestamp. -/
def markProcessed (st : Store) (iid : Nat) (now : Nat) : Store :=
  { st with
      issues := st.issues.map
        (fun r => if r.id == iid then { r with processed_at := some now } else r) }

/-- The persistence tail of a successful run: sort the successes by
order_index, insert groups and segments, mark the issue processed. -/
def finishRun (st : Store) (iid : Nat) (succ : List TopicGroup) (now : Nat) : Store :=
  markProcessed (persistAll st iid (sortByOrder succ)) iid now

/-- The run-level failure message of line 288 (the source's message also
carries the failure counts and samples, which no caller inspects). -/
def tooManyMsg : String := "Too many groups failed"

/-- Embeds `process_newsletter` (processor.py lines 73-356) over the explicit store.
The document fetch and parse are abstracted by their outputs (`title`,
`pub`, `segments_data`); the per-group processor is abstracted by `outcome`,
which may be any function — each group either completes with an enriched
group or raises with a message.  Steps: resolve the issue id (lines 92-110),
delete the issue's old segment and group rows (112-114), group and truncate
(117-123), run the processor over every group collecting successes and
failures (273-284), raise when the failures are non-zero and exceed half of
the submitted groups (286-290) — the error carries the store as the deletes
left it — otherwise sort by order_index, persist groups, segments and the
completion timestamp (298-353) and return the issue id (356).  The
persistence tail is total here; the storage calls it makes in the source
(the group insert at line 315, the segment batch inserts at 345-347, the
completion update at 351) can themselves raise, and `run_pipeline_fallible`
below extends this model with those error paths — the two coincide when no
storage call fails (`run_pipeline_fallible_noFail`). -/
def run_pipeline (st : Store) (title url : String) (pub : Nat) (issue_id? : Option Nat)
    (max_groups? : Option Int) (segments_data : List Seg)
    (outcome : TopicGroup → Except String TopicGroup) (now : Nat) :
    Except (String × Store) (Store × Nat) :=
  let r := resolveIssue st title url pub issue_id?
  let st1 := afterDeletes r.1 r.2
  let groups := truncatedGroups max_groups? segments_data
  let failed := failuresOf outcome groups
  if failed.length ≠ 0 ∧ failed.length * 2 > groups.length then
    .error (tooManyMsg, st1)
  else
    .ok (finishRun st1 r.2 (successesOf outcome groups) now, r.2)


/-- Message standing for the exception a raising storage call propagates out
of `process_newsletter` (the source re-raises the storage client's own
exception; no caller inspects its text). -/
def storageMsg : String := "Storage failure"

/-- Which storage call of the persistence tail raises, if any.  `segBatch k`
is the k-th (zero-based) iteration of the segment batch loop at lines
345-347 (`i = k * batchSize`); a schedule naming a call the run never makes
(e.g. a batch index past the last batch) raises nothing. -/
inductive StoreFail where
  | noFail
  | groupInsert
  | segBatch (k : Nat)
  | completionUpdate
  deriving DecidableEq, Repr

/-- The persistence tail of processor.py lines 300-353 with fallible storage
calls.  `batchSize` is Config.SEGMENT_BATCH_SIZE (positive in the source
configuration; the batch count `(L + batchSize - 1) / batchSize` is the
number of iterations of `range(0, L, batchSize)`).  A raising group insert
commits nothing; a raise at segment batch k leaves the group rows and the
first `k * batchSize` segment rows committed; a raising completion update
leaves every inserted row committed but the issue unmarked.  When there are
no processed groups (lines 314 guard) only the completion update runs. -/
def finishRunFallible (st : Store) (iid : Nat) (sorted : List TopicGroup) (now : Nat)
    (batchSize : Nat) (fail : StoreFail) : Except (String × Store) Store :=
  if sorted.isEmpty then
    if fail = .completionUpdate then .error (storageMsg, st)
    else .ok (markProcessed st iid now)
  else
    if fail = .groupInsert then .error (storageMsg, st)
    else
      let rows := mkGroupRows iid st.nextId sorted
      let st2 := { st with topic_groups := st.topic_groups ++ rows,
                           nextId := st.nextId + sorted.length }
      let allSegs := buildSegRows iid (groupIdMap rows) sorted
      match fail with
      | .segBatch k =>
        if k < (allSegs.length + batchSize - 1) / batchSize then
          .error (storageMsg,
            { st2 with segments := st2.segments ++ allSegs.take (k * batchSize) })
        else .ok (markProcessed { st2 with segments := st2.segments ++ allSegs } iid now)
      | .completionUpdate =>
        .error (storageMsg, { st2 with segments := st2.segments ++ allSegs })
      | _ => .ok (markProcessed { st2 with segments := st2.segments ++ allSegs } iid now)

/-- Embeds `process_newsletter` like `run_pipeline`, with the persistence
tail's storage calls fallible according to `fail`: any such raise propagates
out of the run, carrying the store with everything committed before the
raising call. -/
def run_pipeline_fallible (st : Store) (title url : String) (pub : Nat)
    (issue_id? : Option Nat) (max_groups? : Option Int) (segments_data : List Seg)
    (outcome : TopicGroup → Except String TopicGroup) (now : Nat)
    (batchSize : Nat) (fail : StoreFail) : Except (String × Store) (Store × Nat) :=
  let r := resolveIssue st title url pub issue_id?
  let st1 := afterDeletes r.1 r.2
  let groups := truncatedGroups max_groups? segments_data
  let failed := failuresOf outcome groups
  if failed.length ≠ 0 ∧ failed.length * 2 > groups.length then
    .error (tooManyMsg, st1)
  else
    match finishRunFallible st1 r.2 (sortByOrder (successesOf outcome groups)) now
        batchSize fail with
    | .error e => .error e
    | .ok stF => .ok (stF, r.2)

-- ## Theorems

theorem appendToLast_join (s : Seg) :
    ∀ gs : List TopicGroup, gs ≠ [] →
      ((appendToLast gs s).map (fun g => g.segments)).flatten
        = (gs.map (fun g => g.segments)).flatten ++ [s]
  | [], h => absurd rfl h
  | [g], _ => by simp [appendToLast]
  | g :: g' :: rest, _ => by
    have ih := appendToLast_join s (g' :: rest) (by simp)
    simp only [appendToLast, List.map_cons, List.flatten_cons] at ih ⊢
    rw [ih]
    simp [List.append_assoc]

theorem appendToLast_map_of_const {f : TopicGroup → α}
    (hf : ∀ g s, f { g with segments := g.segments ++ [s] } = f g) (s : Seg) :
    ∀ gs : List TopicGroup, (appendToLast gs s).map f = gs.map f
  | [] => rfl
  | [g] => by simp [appendToLast, hf]
  | g :: g' :: rest => by
    simp only [appendToLast, List.map_cons]
    rw [appendToLast_map_of_const hf s (g' :: rest)]
    simp

theorem groupFold_join :
    ∀ (segs : List Seg) (gs : List TopicGroup) (order : Nat),
      ((groupFold segs gs order).map (fun g => g.segments)).flatten
        = (gs.map (fun g => g.segments)).flatten ++ itemsOf segs
  | [], gs, order => by simp [groupFold, itemsOf]
  | seg :: rest, gs, order => by
    by_cases hh : seg.segment_type = "topic_header" ∨ seg.segment_type = "section_header"
    · have hit : (seg.segment_type == "item") = false := by
        rcases hh with h | h <;> simp [h]
      simp only [groupFold]
      rw [if_pos hh, groupFold_join rest]
      simp [itemsOf, hit]
    · by_cases hi : seg.segment_type = "item"
      · have hit : (seg.segment_type == "item") = true := by simp [hi]
        simp only [groupFold]
        rw [if_neg hh, if_pos hi]
        by_cases he : gs.isEmpty
        · have hgs : gs = [] := List.isEmpty_iff.mp he
          subst hgs
          rw [if_pos (show ([] : List TopicGroup).isEmpty = true by decide),
            groupFold_join rest]
          simp [itemsOf, hit]
        · rw [if_neg he, groupFold_join rest,
            appendToLast_join seg gs (by simpa using he)]
          simp [itemsOf, hit, List.append_assoc]
      · have hit : (seg.segment_type == "item") = false := by simp [hi]
        simp only [groupFold]
        rw [if_neg hh, if_neg hi, groupFold_join rest]
        simp [itemsOf, hit]

theorem filter_keep_join (gs : List TopicGroup) :
    ((gs.filter keepGroup).map (fun g => g.segments)).flatten
      = (gs.map (fun g => g.segments)).flatten := by
  induction gs with
  | nil => rfl
  | cons g rest ih =>
    by_cases hk : keepGroup g
    · rw [List.filter_cons_of_pos hk]
      simp only [List.map_cons, List.flatten_cons, ih]
    · have hemp : g.segments = [] := by
        cases hs : g.segments with
        | nil => rfl
        | cons a t =>
          exact absurd (by simp [keepGroup, hs]) hk
      rw [List.filter_cons_of_neg hk]
      simp [ih, hemp]

theorem reindexFrom_map_segments :
    ∀ (i : Nat) (gs : List TopicGroup),
      (reindexFrom i gs).map (fun g => g.segments) = gs.map (fun g => g.segments)
  | _, [] => rfl
  | i, g :: gs => by
    simp only [reindexFrom, List.map_cons]
    rw [reindexFrom_map_segments (i + 1) gs]

theorem group_segments_join (segs : List Seg) :
    ((_group_segments segs).map (fun g => g.segments)).flatten = itemsOf segs := by
  unfold _group_segments
  rw [reindexFrom_map_segments, filter_keep_join, groupFold_join]
  simp

theorem reindexFrom_all (p : TopicGroup → Bool)
    (hp : ∀ g i, p { g with order_index := i } = p g) :
    ∀ (i : Nat) (gs : List TopicGroup), (reindexFrom i gs).all p = gs.all p
  | _, [] => rfl
  | i, g :: gs => by
    simp only [reindexFrom, List.all_cons]
    rw [hp, reindexFrom_all p hp (i + 1) gs]

theorem filter_all_self (p : TopicGroup → Bool) (gs : List TopicGroup) :
    (gs.filter p).all p = true := by
  induction gs with
  | nil => rfl
  | cons g rest ih =>
    by_cases hk : p g
    · rw [List.filter_cons_of_pos hk]; simp [hk, ih]
    · rw [List.filter_cons_of_neg hk]; exact ih

theorem group_segments_keep (segs : List Seg) :
    (_group_segments segs).all keepGroup = true := by
  unfold _group_segments
  rw [reindexFrom_all keepGroup (fun g i => rfl)]
  exact filter_all_self keepGroup _

theorem reindexFrom_length : ∀ (i : Nat) (gs : List TopicGroup),
    (reindexFrom i gs).length = gs.length
  | _, [] => rfl
  | i, g :: gs => by simp [reindexFrom, reindexFrom_length (i + 1) gs]

theorem reindexFrom_take_map_oi :
    ∀ (gs : List TopicGroup) (m i : Nat),
      (((reindexFrom i gs).take m).map (fun g => g.order_index))
        = List.range' i (min m gs.length)
  | [], m, i => by simp [reindexFrom]
  | g :: gs, 0, i => by simp
  | g :: gs, m + 1, i => by
    simp only [reindexFrom, List.take_succ_cons, List.map_cons]
    rw [reindexFrom_take_map_oi gs m (i + 1)]
    have : min (m + 1) (g :: gs).length = min m gs.length + 1 := by
      simp [Nat.succ_min_succ]
    rw [this, List.range'_succ]

theorem reindexFrom_map_oi (gs : List TopicGroup) :
    (reindexFrom 0 gs).map (fun g => g.order_index) = List.range gs.length := by
  have h := reindexFrom_take_map_oi gs gs.length 0
  rw [List.take_of_length_le (le_of_eq (reindexFrom_length 0 gs))] at h
  rw [h, Nat.min_self, List.range_eq_range']

/-- Claim C3: on the segment sequence
[topic_header "A", item x, item y, section_header "B"], `_group_segments`
returns exactly two groups in order: label "A" with segments [x, y] and the
section-header flag clear, then label "B" with no segments and the
section-header flag set; and (second conjunct) in every run of
`_group_segments`, every returned group either has a segment or has its
section-header flag set — every empty non-section-header group is discarded
by the filter before re-indexing. -/
theorem C3_grouping_example :
    _group_segments
        [{ segment_type := "topic_header", content_raw := "A", links := [], order_index := 0 },
         { segment_type := "item", content_raw := "x", links := [], order_index := 1 },
         { segment_type := "item", content_raw := "y", links := [], order_index := 2 },
         { segment_type := "section_header", content_raw := "B", links := [], order_index := 3 }]
      = [{ label := "A",
           segments := [{ segment_type := "item", content_raw := "x", links := [], order_index := 1 },
                        { segment_type := "item", content_raw := "y", links := [], order_index := 2 }],
           order_index := 0, is_section_header := false },
         { label := "B", segments := [], order_index := 1, is_section_header := true }]
      ∧ ∀ segs : List Seg,
        (_group_segments segs).all (fun g => !g.segments.isEmpty || g.is_section_header) = true :=
  ⟨by decide, fun segs => group_segments_keep segs⟩

/-- Claim C4: on [item x, topic_header "A", item y] the leading orphan item is
assigned to a synthesized "General" group, giving exactly
[{General, [x]}, {A, [y]}]; and (second conjunct) for every input, the
concatenation of the returned groups' segment lists is exactly the sublist of
`item` segments of the input, in order — every surviving segment belongs to
exactly one group. -/
theorem C4_orphan_items :
    _group_segments
        [{ segment_type := "item", content_raw := "x", links := [], order_index := 0 },
         { segment_type := "topic_header", content_raw := "A", links := [], order_index := 1 },
         { segment_type := "item", content_raw := "y", links := [], order_index := 2 }]
      = [{ label := "General",
           segments := [{ segment_type := "item", content_raw := "x", links := [], order_index := 0 }],
           order_index := 0, is_section_header := false },
         { label := "A",
           segments := [{ segment_type := "item", content_raw := "y", links := [], order_index := 2 }],
           order_index := 1, is_section_header := false }]
      ∧ ∀ segs : List Seg,
        ((_group_segments segs).map (fun g => g.segments)).flatten
          = segs.filter (fun s => s.segment_type == "item") :=
  ⟨by decide, fun segs => group_segments_join segs⟩

/-- Claim C6: after `_group_segments` returns, and also after the
orchestrator's optional truncation of the group list (Python `groups[:k]`,
modelled by `pySliceTo` for an arbitrary integer bound), the group position
indices are exactly 0, …, n-1 in order for the n remaining groups —
contiguous, zero-based and unique. -/
theorem C6_order_index_contiguous (segs : List Seg) (k : Int) :
    (_group_segments segs).map (fun g => g.order_index)
        = List.range (_group_segments segs).length
      ∧ (pySliceTo k (_group_segments segs)).map (fun g => g.order_index)
        = List.range (pySliceTo k (_group_segments segs)).length := by
  have base : ∀ m : Nat,
      ((_group_segments segs).take m).map (fun g => g.order_index)
        = List.range (((_group_segments segs).take m).length) := by
    intro m
    unfold _group_segments
    rw [reindexFrom_take_map_oi, List.length_take, reindexFrom_length,
      List.range_eq_range']
  constructor
  · have h := base (_group_segments segs).length
    rwa [List.take_of_length_le (le_refl _)] at h
  · unfold pySliceTo
    by_cases hk : 0 ≤ k
    · rw [if_pos hk]; exact base _
    · rw [if_neg hk]; exact base _

theorem clean_batch_length (texts : List String) (resp : GeminiResult) :
    (_clean_texts_batch texts resp).length = texts.length := by
  unfold _clean_texts_batch
  by_cases he : texts.isEmpty
  · rw [if_pos he]
    simp [List.isEmpty_iff.mp he]
  · rw [if_neg he]
    cases resp with
    | jsonList l => by_cases hl : l.length = texts.length <;> simp [hl]
    | nonList => simp
    | parseFailure => simp
    | callFailure => simp

theorem translate_batch_length (texts : List String) (resp : GeminiResult) :
    (_translate_texts_batch texts resp).length = texts.length := by
  unfold _translate_texts_batch
  by_cases he : texts.isEmpty
  · rw [if_pos he]
    simp [List.isEmpty_iff.mp he]
  · rw [if_neg he]
    cases resp with
    | jsonList l => by_cases hl : l.length = texts.length <;> simp [hl]
    | nonList => simp
    | parseFailure => simp
    | callFailure => simp

/-- Every fallback case of `_clean_texts_batch` returns the input texts. -/
theorem clean_fallback_eq (texts : List String) (resp : GeminiResult) (hne : texts ≠ [])
    (hfail : resp = .nonList ∨ resp = .parseFailure ∨ resp = .callFailure
      ∨ ∃ l, resp = .jsonList l ∧ l.length ≠ texts.length) :
    _clean_texts_batch texts resp = texts.map some := by
  have hemp : ¬texts.isEmpty = true := fun h => hne (List.isEmpty_iff.mp h)
  rcases hfail with h | h | h | ⟨l, h, hlen⟩ <;> subst h <;> unfold _clean_texts_batch
  · rw [if_neg hemp]
  · rw [if_neg hemp]
  · rw [if_neg hemp]
  · rw [if_neg hemp]
    exact if_neg hlen

theorem restoreNulls_length :
    ∀ ts cs : List (Option String), cs.length = (ts.filterMap id).length →
      (restoreNulls ts cs).length = ts.length
  | [], _, _ => rfl
  | none :: ts, cs, h => by
    simp only [restoreNulls, List.length_cons]
    rw [restoreNulls_length ts cs (by simpa [List.filterMap_cons] using h)]
  | some a :: ts, cs, h => by
    cases cs with
    | nil => simp [List.filterMap_cons] at h
    | cons c cs' =>
      simp only [restoreNulls, List.length_cons]
      rw [restoreNulls_length ts cs' (by simpa [List.filterMap_cons] using h)]

theorem restoreNulls_null :
    ∀ (ts cs : List (Option String)) (i : Nat),
      cs.length = (ts.filterMap id).length →
      ts[i]? = some none → (restoreNulls ts cs)[i]? = some none
  | [], _, i, _, h => by simp at h
  | none :: ts, cs, 0, _, _ => by simp [restoreNulls]
  | none :: ts, cs, i + 1, hl, h => by
    simp only [List.getElem?_cons_succ] at h
    simp only [restoreNulls, List.getElem?_cons_succ]
    exact restoreNulls_null ts cs i (by simpa [List.filterMap_cons] using hl) h
  | some a :: ts, cs, i, hl, h => by
    cases cs with
    | nil => simp [List.filterMap_cons] at hl
    | cons c cs' =>
      cases i with
      | zero => simp at h
      | succ i =>
        simp only [List.getElem?_cons_succ] at h
        simp only [restoreNulls, List.getElem?_cons_succ]
        exact restoreNulls_null ts cs' i (by simpa [List.filterMap_cons] using hl) h

theorem restoreNulls_pos :
    ∀ (ts cs : List (Option String)) (i : Nat) (t : String),
      cs.length = (ts.filterMap id).length →
      ts[i]? = some (some t) →
      (restoreNulls ts cs)[i]? = cs[((ts.take i).filterMap id).length]?
  | [], _, i, t, _, h => by simp at h
  | none :: ts, cs, 0, t, _, h => by simp at h
  | none :: ts, cs, i + 1, t, hl, h => by
    simp only [List.getElem?_cons_succ] at h
    have ih := restoreNulls_pos ts cs i t (by simpa [List.filterMap_cons] using hl) h
    simp only [restoreNulls, List.getElem?_cons_succ, List.take_succ_cons,
      List.filterMap_cons]
    exact ih
  | some a :: ts, cs, i, t, hl, h => by
    cases cs with
    | nil => simp [List.filterMap_cons] at hl
    | cons c cs' =>
      cases i with
      | zero => simp [restoreNulls]
      | succ i =>
        simp only [List.getElem?_cons_succ] at h
        have ih := restoreNulls_pos ts cs' i t (by simpa [List.filterMap_cons] using hl) h
        simp only [restoreNulls, List.getElem?_cons_succ, List.take_succ_cons,
          List.filterMap_cons, id_eq, List.length_cons]
        exact ih

theorem clean_translated_length (translated : List (Option String)) (resp : GeminiResult) :
    (clean_translated_texts translated resp).length = translated.length := by
  unfold clean_translated_texts
  by_cases he : (translated.filterMap id).isEmpty
  · rw [if_pos he]; simp
  · rw [if_neg he]
    exact restoreNulls_length _ _ (clean_batch_length _ _)

theorem clean_translated_null (translated : List (Option String)) (resp : GeminiResult)
    (i : Nat) (h : translated[i]? = some none) :
    (clean_translated_texts translated resp)[i]? = some none := by
  unfold clean_translated_texts
  by_cases he : (translated.filterMap id).isEmpty
  · rw [if_pos he, List.getElem?_map, h]
    rfl
  · rw [if_neg he]
    exact restoreNulls_null translated _ i (clean_batch_length _ _) h

theorem clean_translated_pos (translated : List (Option String)) (resp : GeminiResult)
    (i : Nat) (t : String) (h : translated[i]? = some (some t)) :
    (clean_translated_texts translated resp)[i]?
      = (_clean_texts_batch (translated.filterMap id) resp)[((translated.take i).filterMap id).length]? := by
  unfold clean_translated_texts
  by_cases he : (translated.filterMap id).isEmpty
  · exfalso
    have hmem : some t ∈ translated := by
      have := List.getElem?_eq_some_iff.mp h
      rcases this with ⟨hlt, hget⟩
      exact hget ▸ List.getElem_mem hlt
    have : t ∈ translated.filterMap id := List.mem_filterMap.mpr ⟨some t, hmem, rfl⟩
    rw [List.isEmpty_iff.mp he] at this
    simp at this
  · rw [if_neg he]
    exact restoreNulls_pos translated _ i t (clean_batch_length _ _) h

theorem assignTexts_getD (cleaned translated cleanedZh : List (Option String)) (off : Nat) :
    ∀ (j i : Nat) (segs : List Seg), i < segs.length →
      (assignTexts cleaned translated cleanedZh off j segs).getD i dummySeg
        = { segs.getD i dummySeg with
            content_clean := cleaned.getD (j + i + off) none,
            content_raw_zh := translated.getD (j + i + off) none,
            content_clean_zh := cleanedZh.getD (j + i + off) none }
  | j, i, [], hi => absurd hi (by simp)
  | j, 0, s :: rest, _ => by
    simp [assignTexts, List.getD_cons_zero]
  | j, i + 1, s :: rest, hi => by
    simp only [assignTexts, List.getD_cons_succ]
    have ih := assignTexts_getD cleaned translated cleanedZh off (j + 1) i rest
      (by simpa using hi)
    rw [show j + 1 + i + off = j + (i + 1) + off from by omega] at ih
    exact ih

/-- Generic in-range indexing through `List.map`: the `getD` default is
irrelevant below the length. -/
theorem getD_map_of_lt (f : α → β) (d : α) (e : β) :
    ∀ (l : List α) (n : Nat), n < l.length → (l.map f).getD n e = f (l.getD n d)
  | [], n, h => absurd h (by simp)
  | a :: l, 0, _ => by simp
  | a :: l, n + 1, h => by
    simp only [List.map_cons, List.getD_cons_succ]
    exact getD_map_of_lt f d e l n (by simpa using h)

/-- In-range `getD` agrees with `getElem?`. -/
theorem getD_of_getElem? (d : α) :
    ∀ (l : List α) (n : Nat) (v : α), l[n]? = some v → l.getD n d = v
  | [], n, v, h => by simp at h
  | a :: l, 0, v, h => by
    simp only [List.getElem?_cons_zero, Option.some.injEq] at h
    simpa [List.getD_cons_zero] using h
  | a :: l, n + 1, v, h => by
    simp only [List.getElem?_cons_succ] at h
    simp only [List.getD_cons_succ]
    exact getD_of_getElem? d l n v h

/-- In-range `getElem?` yields the `getD` value. -/
theorem getElem?_of_lt (d : α) :
    ∀ (l : List α) (n : Nat), n < l.length → l[n]? = some (l.getD n d)
  | [], n, h => absurd h (by simp)
  | a :: l, 0, _ => by simp
  | a :: l, n + 1, h => by
    simp only [List.getElem?_cons_succ, List.getD_cons_succ]
    exact getElem?_of_lt d l n (by simpa using h)

/-- Claim C5: for every non-empty input list `_clean_texts_batch` returns a
list of exactly the input's length; and whenever the collaborator's response
is not a list, or is a list whose length differs from the input's, or fails
to parse (including a raised call, which the source recovers identically),
the returned list is exactly the original input list — every entry equal to
its raw text, no items lost. -/
theorem C5_clean_batch_fallback (texts : List String) (resp : GeminiResult)
    (hne : texts ≠ []) :
    (_clean_texts_batch texts resp).length = texts.length
      ∧ (∀ l, resp = .jsonList l → l.length ≠ texts.length →
          _clean_texts_batch texts resp = texts.map some)
      ∧ (resp = .nonList ∨ resp = .parseFailure ∨ resp = .callFailure →
          _clean_texts_batch texts resp = texts.map some) := by
  refine ⟨clean_batch_length texts resp, ?_, ?_⟩
  · intro l hl hlen
    exact clean_fallback_eq texts resp hne (Or.inr (Or.inr (Or.inr ⟨l, hl, hlen⟩)))
  · intro h
    rcases h with h | h | h
    · exact clean_fallback_eq texts resp hne (Or.inl h)
    · exact clean_fallback_eq texts resp hne (Or.inr (Or.inl h))
    · exact clean_fallback_eq texts resp hne (Or.inr (Or.inr (Or.inl h)))

/-- Witness for C5 at a concrete input: a non-list response on input ["a"]
falls back to the input itself. -/
theorem C5_clean_batch_fallback_witness :
    (["a"] : List String) ≠ [] ∧ _clean_texts_batch ["a"] .nonList = ["a"].map some :=
  ⟨by decide, (C5_clean_batch_fallback ["a"] .nonList (by decide)).2.2 (Or.inl rfl)⟩

/-- Claim C7 counterexample: with label "A" and one segment of non-empty raw
text "x", the well-shaped clean response ["Now A", ""] (a list of the correct
length 2) makes the segment's cleaned text the empty string — the source uses
a successful response verbatim (line 226) and only falls back on shape
failures, so cleaned text can be empty while raw text is not, refuting the
claim's "for every possible response of the clean collaborator". -/
theorem C7_counterexample :
    ((process_group_texts "A"
          [{ segment_type := "item", content_raw := "x", links := [], order_index := 0 }]
          false (.jsonList [some "Now A", some ""]) .callFailure .callFailure).getD 0 dummySeg).content_clean
        = some ""
      ∧ ((process_group_texts "A"
          [{ segment_type := "item", content_raw := "x", links := [], order_index := 0 }]
          false (.jsonList [some "Now A", some ""]) .callFailure .callFailure).getD 0 dummySeg).content_raw
        = "x"
      ∧ ("x" : String) ≠ "" := by
  refine ⟨by decide, by decide, by decide⟩

/-- Claim C7 (amended): whenever the clean call fails in one of the source's
recovered ways — non-list response, mismatched length, decode failure, or a
raised call — every segment that completes group processing has
`content_clean = some content_raw`: cleaning failure falls back to the raw
text, never to an empty or absent value, so the cleaned text is non-empty
whenever the raw text is.  (A well-shaped response is applied verbatim, so an
empty or null entry inside one does reach `content_clean`; see
`C7_counterexample`.) -/
theorem C7_clean_failure_falls_back_to_raw (label : String) (segs : List Seg)
    (bilingual : Bool) (cleanResp transResp cleanZhResp : GeminiResult)
    (hfail : cleanResp = .nonList ∨ cleanResp = .parseFailure ∨ cleanResp = .callFailure
      ∨ ∃ l, cleanResp = .jsonList l
          ∧ l.length ≠ (if label.isEmpty then 0 else 1) + segs.length)
    (i : Nat) (hi : i < segs.length) :
    ((process_group_texts label segs bilingual cleanResp transResp cleanZhResp).getD i dummySeg).content_clean
      = some ((segs.getD i dummySeg).content_raw) := by
  have hlen :
      ((if label.isEmpty then ([] : List String) else [label])
          ++ segs.map (fun s => s.content_raw)).length
        = (if label.isEmpty then 0 else 1) + segs.length := by
    by_cases hl : label.isEmpty
    · simp [hl]
    · simp [hl]
      omega
  have hne :
      (if label.isEmpty then ([] : List String) else [label])
          ++ segs.map (fun s => s.content_raw) ≠ [] := by
    intro h
    have h0 : segs.map (fun s => s.content_raw) = [] := (List.append_eq_nil.mp h).2
    have h1 : segs.length = 0 := by simpa using congrArg List.length h0
    omega
  have hclean :
      _clean_texts_batch
          ((if label.isEmpty then ([] : List String) else [label])
            ++ segs.map (fun s => s.content_raw)) cleanResp
        = ((if label.isEmpty then ([] : List String) else [label])
            ++ segs.map (fun s => s.content_raw)).map some := by
    apply clean_fallback_eq _ _ hne
    rcases hfail with h | h | h | ⟨l, h, hll⟩
    · exact Or.inl h
    · exact Or.inr (Or.inl h)
    · exact Or.inr (Or.inr (Or.inl h))
    · exact Or.inr (Or.inr (Or.inr ⟨l, h, by rw [hlen]; exact hll⟩))
  dsimp only [process_group_texts]
  rw [assignTexts_getD _ _ _ _ 0 i segs hi]
  dsimp only
  rw [Nat.zero_add, hclean]
  by_cases hl : label.isEmpty
  · simp only [if_pos hl, List.nil_append, Nat.add_zero]
    rw [getD_map_of_lt some "" none (segs.map fun s => s.content_raw) i (by simpa using hi),
      getD_map_of_lt (fun s => s.content_raw) dummySeg "" segs i hi]
  · simp only [if_neg hl, List.cons_append, List.nil_append, List.map_cons,
      List.getD_cons_succ]
    rw [getD_map_of_lt some "" none (segs.map fun s => s.content_raw) i (by simpa using hi),
      getD_map_of_lt (fun s => s.content_raw) dummySeg "" segs i hi]

/-- Witness for the amended C7 at a concrete input: a decode failure makes the
segment's cleaned text equal its raw text. -/
theorem C7_clean_failure_falls_back_to_raw_witness :
    ((process_group_texts "A"
          [{ segment_type := "item", content_raw := "x", links := [], order_index := 0 }]
          true .parseFailure .callFailure .callFailure).getD 0 dummySeg).content_clean
      = some ((([{ segment_type := "item", content_raw := "x", links := [], order_index := 0 }] : List Seg).getD 0 dummySeg).content_raw) :=
  C7_clean_failure_falls_back_to_raw "A"
    [{ segment_type := "item", content_raw := "x", links := [], order_index := 0 }]
    true .parseFailure .callFailure .callFailure (Or.inr (Or.inl rfl)) 0 (by decide)

/-- Claim C8 counterexample: for the empty document the element walk emits no
segments and the normalized whole-document text is empty (parsing "" finds no
elements and extracting its text gives ""), and then `_parse_newsletter`
emits no segments at all — `add_segment` drops empty text before the
synthetic pair is built — so the claim's "for every input document,
_parse_newsletter emits at least one segment" fails. -/
theorem C8_counterexample : parse_fallback [] "" = [] := by decide

/-- Claim C8 (amended): when the structural walk emits no segments and the
normalized whole-document text is non-empty, `_parse_newsletter` emits
exactly one synthetic section_header holding the truncated (first 100
characters plus "...") whole-document text followed by one item holding the
full text; when the walk emitted segments they are returned unchanged; and
the result is empty exactly when the walk emitted nothing and the
whole-document text is empty. -/
theorem C8_parser_fallback (walked : List Seg) (normText : String) :
    (walked = [] → ¬normText.isEmpty → parse_fallback walked normText
        = [{ segment_type := "section_header", content_raw := normText.take 100 ++ "...",
             links := [], order_index := 0 },
           { segment_type := "item", content_raw := normText, links := [], order_index := 1 }])
      ∧ (walked ≠ [] → parse_fallback walked normText = walked)
      ∧ (parse_fallback walked normText = [] ↔ walked = [] ∧ normText.isEmpty = true) := by
  refine ⟨?_, ?_, ?_⟩
  · intro hw hn
    subst hw
    unfold parse_fallback
    rw [if_pos (show ([] : List Seg).isEmpty = true by decide), if_neg hn]
  · intro hw
    unfold parse_fallback
    rw [if_neg (fun h => hw (List.isEmpty_iff.mp h))]
  · unfold parse_fallback
    by_cases hw : walked.isEmpty
    · rw [if_pos hw]
      by_cases hn : normText.isEmpty
      · rw [if_pos hn]
        simp [List.isEmpty_iff.mp hw, hn]
      · rw [if_neg hn]
        simp [hn]
    · rw [if_neg hw]
      have hne : walked ≠ [] := fun h => hw (by simp [h])
      simp [hne]

/-- Witness for the amended C8 at a concrete input: a walk that found nothing
over a document with text "doc" yields the synthetic header + item pair. -/
theorem C8_parser_fallback_witness :
    parse_fallback [] "doc"
      = [{ segment_type := "section_header", content_raw := ("doc" : String).take 100 ++ "...",
           links := [], order_index := 0 },
         { segment_type := "item", content_raw := "doc", links := [], order_index := 1 }] :=
  (C8_parser_fallback [] "doc").1 rfl (by decide)

/-- Length of the batch text list built by `process_group` (label slot plus
one slot per segment). -/
theorem texts_to_clean_length (label : String) (segs : List Seg) :
    ((if label.isEmpty then ([] : List String) else [label])
        ++ segs.map (fun s => s.content_raw)).length
      = (if label.isEmpty then 0 else 1) + segs.length := by
  by_cases hl : label.isEmpty
  · simp [hl]
  · simp [hl]
    omega

/-- Claim C9: in bilingual mode the TTS-ready translated list preserves null
positions.  Conjunct 1: position i of the cleaned-translated list is null
whenever position i of the translated list is null.  Conjunct 2: a non-null
position i receives entry k of the batch-clean of the non-null translated
entries taken in their original order, where k counts the non-null entries
before position i — results are restored at their original positions.
Conjunct 3: consequently, for every segment, a non-null `content_clean_zh`
implies a non-null `content_raw_zh`.  Conjunct 4: not conversely — a
well-shaped second-clean response containing a JSON null for one entry leaves
that segment with `content_raw_zh` populated and `content_clean_zh` null. -/
theorem C9_translated_null_preservation :
    (∀ (translated : List (Option String)) (resp : GeminiResult) (i : Nat),
        translated[i]? = some none →
        (clean_translated_texts translated resp)[i]? = some none)
      ∧ (∀ (translated : List (Option String)) (resp : GeminiResult) (i : Nat) (t : String),
          translated[i]? = some (some t) →
          (clean_translated_texts translated resp)[i]?
            = (_clean_texts_batch (translated.filterMap id) resp)[((translated.take i).filterMap id).length]?)
      ∧ (∀ (label : String) (segs : List Seg) (r1 r2 r3 : GeminiResult) (i : Nat),
          i < segs.length →
          ((process_group_texts label segs true r1 r2 r3).getD i dummySeg).content_clean_zh ≠ none →
          ((process_group_texts label segs true r1 r2 r3).getD i dummySeg).content_raw_zh ≠ none)
      ∧ (((process_group_texts "L"
              [{ segment_type := "item", content_raw := "x", links := [], order_index := 0 }]
              true (.jsonList [some "c0", some "c1"]) (.jsonList [some "t0", some "t1"])
              (.jsonList [some "tc0", none])).getD 0 dummySeg).content_raw_zh = some "t1"
          ∧ ((process_group_texts "L"
              [{ segment_type := "item", content_raw := "x", links := [], order_index := 0 }]
              true (.jsonList [some "c0", some "c1"]) (.jsonList [some "t0", some "t1"])
              (.jsonList [some "tc0", none])).getD 0 dummySeg).content_clean_zh = none) := by
  refine ⟨fun translated resp i h => clean_translated_null translated resp i h,
    fun translated resp i t h => clean_translated_pos translated resp i t h,
    ?_, by decide, by decide⟩
  intro label segs r1 r2 r3 i hi
  dsimp only [process_group_texts]
  simp only [if_true]
  rw [assignTexts_getD _ _ _ _ 0 i segs hi]
  dsimp only
  intro hz hT
  apply hz
  have hjlt : 0 + i + (if label.isEmpty then 0 else 1)
      < (_translate_texts_batch
          ((if label.isEmpty then ([] : List String) else [label])
            ++ segs.map (fun s => s.content_raw)) r2).length := by
    rw [translate_batch_length, texts_to_clean_length]
    generalize (if label.isEmpty then 0 else 1) = o
    omega
  have hsome := getElem?_of_lt none _ _ hjlt
  rw [hT] at hsome
  exact getD_of_getElem? none _ _ none (clean_translated_null _ r3 _ hsome)

/-- Witness for C9 at a concrete input: a null at position 1 of the translated
list is preserved at position 1 of the cleaned-translated list. -/
theorem C9_translated_null_preservation_witness :
    ([some "a", none] : List (Option String))[1]? = some none
      ∧ (clean_translated_texts [some "a", none] .callFailure)[1]? = some none :=
  ⟨by decide, C9_translated_null_preservation.1 [some "a", none] .callFailure 1 (by decide)⟩

theorem filter_not_filter (p : α → Bool) (l : List α) :
    (l.filter (fun x => !(p x))).filter p = [] := by
  induction l with
  | nil => rfl
  | cons a l ih => by_cases hp : p a <;> simp [List.filter_cons, hp, ih]

theorem afterDeletes_group_rows (st : Store) (iid : Nat) :
    groupRowsFor (afterDeletes st iid) iid = [] :=
  filter_not_filter _ _

theorem afterDeletes_seg_rows (st : Store) (iid : Nat) :
    segRowsFor (afterDeletes st iid) iid = [] :=
  filter_not_filter _ _

theorem mkGroupRows_filter_eq (iid : Nat) :
    ∀ (nid : Nat) (gs : List TopicGroup),
      (mkGroupRows iid nid gs).filter (fun r => r.issue_id == iid) = mkGroupRows iid nid gs
  | _, [] => rfl
  | nid, g :: gs => by
    simp only [mkGroupRows, List.filter_cons]
    rw [mkGroupRows_filter_eq iid (nid + 1) gs]
    simp

theorem mkGroupRows_map_proj (iid : Nat) :
    ∀ (nid : Nat) (gs : List TopicGroup),
      (mkGroupRows iid nid gs).map groupProj = gs.map groupVal
  | _, [] => rfl
  | nid, g :: gs => by
    simp only [mkGroupRows, List.map_cons]
    rw [mkGroupRows_map_proj iid (nid + 1) gs]
    rfl

theorem groupIdMap_isSome_of_mem (iid : Nat) :
    ∀ (nid : Nat) (gs : List TopicGroup) (g : TopicGroup), g ∈ gs →
      (groupIdMap (mkGroupRows iid nid gs) g.order_index).isSome
  | _, [], g, hmem => absurd hmem (by simp)
  | nid, g' :: gs, g, hmem => by
    rcases List.mem_cons.mp hmem with heq | htail
    · subst heq
      simp only [mkGroupRows, groupIdMap]
      cases hrest : groupIdMap (mkGroupRows iid (nid + 1) gs) g.order_index with
      | some v => simp
      | none => simp
    · have ih := groupIdMap_isSome_of_mem iid (nid + 1) gs g htail
      simp only [mkGroupRows, groupIdMap]
      cases hrest : groupIdMap (mkGroupRows iid (nid + 1) gs) g.order_index with
      | some v => simp
      | none => rw [hrest] at ih; simp at ih

theorem buildSegRows_filter_eq (iid : Nat) (idMap : Nat → Option Nat) :
    ∀ gs : List TopicGroup,
      (buildSegRows iid idMap gs).filter (fun s => s.issue_id == iid) = buildSegRows iid idMap gs
  | [] => rfl
  | g :: gs => by
    simp only [buildSegRows, List.filter_append]
    rw [buildSegRows_filter_eq iid idMap gs]
    cases hm : idMap g.order_index with
    | none => simp
    | some gid =>
      congr 1
      apply List.filter_eq_self.mpr
      intro r hr
      rcases List.mem_map.mp hr with ⟨s, _, hs⟩
      subst hs
      simp

theorem buildSegRows_map_seg (iid : Nat) (idMap : Nat → Option Nat) :
    ∀ gs : List TopicGroup, (∀ g ∈ gs, (idMap g.order_index).isSome) →
      (buildSegRows iid idMap gs).map (fun r => r.seg)
        = (gs.map (fun g => g.segments.map persistGuard)).flatten
  | [], _ => rfl
  | g :: gs, hall => by
    have hgsome := hall g (by simp)
    rcases Option.isSome_iff_exists.mp hgsome with ⟨gid, hgid⟩
    simp only [buildSegRows, List.map_append, List.map_cons, List.flatten_cons, hgid]
    rw [buildSegRows_map_seg iid idMap gs (fun g' hg' => hall g' (by simp [hg']))]
    simp [List.map_map, Function.comp]

/-- Complete description of the collections owned by the issue after the
persistence tail, starting from a store whose rows for the issue were
deleted. -/
theorem finishRun_rows (st1 : Store) (iid : Nat) (succ : List TopicGroup) (now : Nat)
    (hg : groupRowsFor st1 iid = []) (hs : segRowsFor st1 iid = []) :
    (groupRowsFor (finishRun st1 iid succ now) iid).map groupProj
        = (sortByOrder succ).map groupVal
      ∧ (segRowsFor (finishRun st1 iid succ now) iid).map (fun r => r.seg)
        = ((sortByOrder succ).map (fun g => g.segments.map persistGuard)).flatten := by
  unfold groupRowsFor at hg ⊢
  unfold segRowsFor at hs ⊢
  unfold finishRun markProcessed persistAll
  by_cases he : (sortByOrder succ).isEmpty
  · rw [if_pos he, List.isEmpty_iff.mp he]
    exact ⟨by simp [hg], by simp [hs]⟩
  · rw [if_neg he]
    constructor
    · dsimp only
      rw [List.filter_append, hg, List.nil_append, mkGroupRows_filter_eq,
        mkGroupRows_map_proj]
    · dsimp only
      rw [List.filter_append, hs, List.nil_append, buildSegRows_filter_eq,
        buildSegRows_map_seg _ _ _
          (fun g hgmem => groupIdMap_isSome_of_mem iid st1.nextId _ g hgmem)]

theorem run_pipeline_aborts (st : Store) (title url : String) (pub : Nat)
    (issue_id? : Option Nat) (max_groups? : Option Int) (segments_data : List Seg)
    (outcome : TopicGroup → Except String TopicGroup) (now : Nat)
    (h2 : (failuresOf outcome (truncatedGroups max_groups? segments_data)).length * 2
      > (truncatedGroups max_groups? segments_data).length) :
    run_pipeline st title url pub issue_id? max_groups? segments_data outcome now
      = .error (tooManyMsg,
          afterDeletes (resolveIssue st title url pub issue_id?).1
            (resolveIssue st title url pub issue_id?).2) := by
  have hne : (failuresOf outcome (truncatedGroups max_groups? segments_data)).length ≠ 0 := by
    intro h0
    rw [h0] at h2
    omega
  simp only [run_pipeline]
  rw [if_pos ⟨hne, h2⟩]

theorem run_pipeline_continues (st : Store) (title url : String) (pub : Nat)
    (issue_id? : Option Nat) (max_groups? : Option Int) (segments_data : List Seg)
    (outcome : TopicGroup → Except String TopicGroup) (now : Nat)
    (h2 : (failuresOf outcome (truncatedGroups max_groups? segments_data)).length * 2
      ≤ (truncatedGroups max_groups? segments_data).length) :
    run_pipeline st title url pub issue_id? max_groups? segments_data outcome now
      = .ok (finishRun
            (afterDeletes (resolveIssue st title url pub issue_id?).1
              (resolveIssue st title url pub issue_id?).2)
            (resolveIssue st title url pub issue_id?).2
            (successesOf outcome (truncatedGroups max_groups? segments_data)) now,
          (resolveIssue st title url pub issue_id?).2) := by
  simp only [run_pipeline]
  rw [if_neg (fun hc => absurd hc.2 (by omega))]

theorem run_pipeline_error_inv (st : Store) (title url : String) (pub : Nat)
    (issue_id? : Option Nat) (max_groups? : Option Int) (segments_data : List Seg)
    (outcome : TopicGroup → Except String TopicGroup) (now : Nat)
    (e : String) (st' : Store)
    (h : run_pipeline st title url pub issue_id? max_groups? segments_data outcome now
      = .error (e, st')) :
    e = tooManyMsg
      ∧ st' = afterDeletes (resolveIssue st title url pub issue_id?).1
          (resolveIssue st title url pub issue_id?).2 := by
  revert h
  simp only [run_pipeline]
  by_cases hc : (failuresOf outcome (truncatedGroups max_groups? segments_data)).length ≠ 0
      ∧ (failuresOf outcome (truncatedGroups max_groups? segments_data)).length * 2
        > (truncatedGroups max_groups? segments_data).length
  · rw [if_pos hc]
    intro h
    simp only [Except.error.injEq, Prod.mk.injEq] at h
    exact ⟨h.1.symm, h.2.symm⟩
  · rw [if_neg hc]
    intro h
    exact absurd h (by simp)

theorem run_pipeline_ok_inv (st : Store) (title url : String) (pub : Nat)
    (issue_id? : Option Nat) (max_groups? : Option Int) (segments_data : List Seg)
    (outcome : TopicGroup → Except String TopicGroup) (now : Nat)
    (stF : Store) (idF : Nat)
    (h : run_pipeline st title url pub issue_id? max_groups? segments_data outcome now
      = .ok (stF, idF)) :
    idF = (resolveIssue st title url pub issue_id?).2
      ∧ stF = finishRun
          (afterDeletes (resolveIssue st title url pub issue_id?).1
            (resolveIssue st title url pub issue_id?).2)
          (resolveIssue st title url pub issue_id?).2
          (successesOf outcome (truncatedGroups max_groups? segments_data)) now := by
  revert h
  simp only [run_pipeline]
  by_cases hc : (failuresOf outcome (truncatedGroups max_groups? segments_data)).length ≠ 0
      ∧ (failuresOf outcome (truncatedGroups max_groups? segments_data)).length * 2
        > (truncatedGroups max_groups? segments_data).length
  · rw [if_pos hc]
    intro h
    exact absurd h (by simp)
  · rw [if_neg hc]
    intro h
    simp only [Except.ok.injEq, Prod.mk.injEq] at h
    exact ⟨h.2.symm, h.1.symm⟩

/-- Claim C1: for every run submitting n groups to the group processor, when
the failed groups exceed n/2 the run raises the run-level failure — the error
carries the store exactly as the deletes left it, with no group or segment
row for the issue inserted (nor any other row) — and when the failures are at
most n/2 (including exactly half, since the comparison is strict) the run
returns the resolved issue identifier and persists exactly the successful
groups and their segments: the issue's group rows project to the successes
(sorted by order_index) and its segment rows to their segments in order. -/
theorem C1_failure_threshold (st : Store) (title url : String) (pub : Nat)
    (issue_id? : Option Nat) (max_groups? : Option Int) (segments_data : List Seg)
    (outcome : TopicGroup → Except String TopicGroup) (now : Nat)
    (iid : Nat) (hiid : iid = (resolveIssue st title url pub issue_id?).2)
    (groups : List TopicGroup) (hgroups : groups = truncatedGroups max_groups? segments_data)
    (nfail : Nat) (hnfail : nfail = (failuresOf outcome groups).length) :
    (nfail * 2 > groups.length →
      run_pipeline st title url pub issue_id? max_groups? segments_data outcome now
          = .error (tooManyMsg, afterDeletes (resolveIssue st title url pub issue_id?).1 iid)
        ∧ groupRowsFor (afterDeletes (resolveIssue st title url pub issue_id?).1 iid) iid = []
        ∧ segRowsFor (afterDeletes (resolveIssue st title url pub issue_id?).1 iid) iid = [])
    ∧ (nfail * 2 ≤ groups.length →
      ∃ stF,
        run_pipeline st title url pub issue_id? max_groups? segments_data outcome now
            = .ok (stF, iid)
          ∧ (groupRowsFor stF iid).map groupProj
              = (sortByOrder (successesOf outcome groups)).map groupVal
          ∧ (segRowsFor stF iid).map (fun r => r.seg)
              = ((sortByOrder (successesOf outcome groups)).map
                  (fun g => g.segments.map persistGuard)).flatten) := by
  subst hiid hgroups hnfail
  constructor
  · intro habort
    exact ⟨run_pipeline_aborts st title url pub issue_id? max_groups? segments_data
        outcome now habort,
      afterDeletes_group_rows _ _, afterDeletes_seg_rows _ _⟩
  · intro hcont
    refine ⟨finishRun
        (afterDeletes (resolveIssue st title url pub issue_id?).1
          (resolveIssue st title url pub issue_id?).2)
        (resolveIssue st title url pub issue_id?).2
        (successesOf outcome (truncatedGroups max_groups? segments_data)) now,
      run_pipeline_continues st title url pub issue_id? max_groups? segments_data
        outcome now hcont, ?_, ?_⟩
    · exact (finishRun_rows _ _ _ _ (afterDeletes_group_rows _ _)
        (afterDeletes_seg_rows _ _)).1
    · exact (finishRun_rows _ _ _ _ (afterDeletes_group_rows _ _)
        (afterDeletes_seg_rows _ _)).2

/-- Witness for C1 at concrete inputs with 4 submitted groups: with 3
failures (only the group at order_index 0 succeeds) the run raises, and with
2 failures (order_index 0 and 1 succeed) the run returns the issue id and
persists exactly the two successes. -/
theorem C1_failure_threshold_witness :
    ((failuresOf (fun g => if g.order_index = 0 then .ok g else .error "boom")
          (truncatedGroups none
            [{ segment_type := "topic_header", content_raw := "A", links := [], order_index := 0 },
             { segment_type := "item", content_raw := "aaaaaaaaaaaa", links := [], order_index := 1 },
             { segment_type := "topic_header", content_raw := "B", links := [], order_index := 2 },
             { segment_type := "item", content_raw := "bbbbbbbbbbbb", links := [], order_index := 3 },
             { segment_type := "topic_header", content_raw := "C", links := [], order_index := 4 },
             { segment_type := "item", content_raw := "cccccccccccc", links := [], order_index := 5 },
             { segment_type := "topic_header", content_raw := "D", links := [], order_index := 6 },
             { segment_type := "item", content_raw := "dddddddddddd", links := [], order_index := 7 }])).length * 2
        > (truncatedGroups none
            [{ segment_type := "topic_header", content_raw := "A", links := [], order_index := 0 },
             { segment_type := "item", content_raw := "aaaaaaaaaaaa", links := [], order_index := 1 },
             { segment_type := "topic_header", content_raw := "B", links := [], order_index := 2 },
             { segment_type := "item", content_raw := "bbbbbbbbbbbb", links := [], order_index := 3 },
             { segment_type := "topic_header", content_raw := "C", links := [], order_index := 4 },
             { segment_type := "item", content_raw := "cccccccccccc", links := [], order_index := 5 },
             { segment_type := "topic_header", content_raw := "D", links := [], order_index := 6 },
             { segment_type := "item", content_raw := "dddddddddddd", links := [], order_index := 7 }]).length
      ∧ run_pipeline { issues := [], topic_groups := [], segments := [], nextId := 0 }
          "t" "u" 0 none none
          [{ segment_type := "topic_header", content_raw := "A", links := [], order_index := 0 },
           { segment_type := "item", content_raw := "aaaaaaaaaaaa", links := [], order_index := 1 },
           { segment_type := "topic_header", content_raw := "B", links := [], order_index := 2 },
           { segment_type := "item", content_raw := "bbbbbbbbbbbb", links := [], order_index := 3 },
           { segment_type := "topic_header", content_raw := "C", links := [], order_index := 4 },
           { segment_type := "item", content_raw := "cccccccccccc", links := [], order_index := 5 },
           { segment_type := "topic_header", content_raw := "D", links := [], order_index := 6 },
           { segment_type := "item", content_raw := "dddddddddddd", links := [], order_index := 7 }]
          (fun g => if g.order_index = 0 then .ok g else .error "boom") 0
        = .error (tooManyMsg,
            afterDeletes
              (resolveIssue { issues := [], topic_groups := [], segments := [], nextId := 0 }
                "t" "u" 0 none).1
              (resolveIssue { issues := [], topic_groups := [], segments := [], nextId := 0 }
                "t" "u" 0 none).2))
    ∧ (∃ stF,
        run_pipeline { issues := [], topic_groups := [], segments := [], nextId := 0 }
            "t" "u" 0 none none
            [{ segment_type := "topic_header", content_raw := "A", links := [], order_index := 0 },
             { segment_type := "item", content_raw := "aaaaaaaaaaaa", links := [], order_index := 1 },
             { segment_type := "topic_header", content_raw := "B", links := [], order_index := 2 },
             { segment_type := "item", content_raw := "bbbbbbbbbbbb", links := [], order_index := 3 },
             { segment_type := "topic_header", content_raw := "C", links := [], order_index := 4 },
             { segment_type := "item", content_raw := "cccccccccccc", links := [], order_index := 5 },
             { segment_type := "topic_header", content_raw := "D", links := [], order_index := 6 },
             { segment_type := "item", content_raw := "dddddddddddd", links := [], order_index := 7 }]
            (fun g => if g.order_index ≤ 1 then .ok g else .error "boom") 0
          = .ok (stF,
              (resolveIssue { issues := [], topic_groups := [], segments := [], nextId := 0 }
                "t" "u" 0 none).2)
        ∧ (groupRowsFor stF
              (resolveIssue { issues := [], topic_groups := [], segments := [], nextId := 0 }
                "t" "u" 0 none).2).map groupProj
            = (sortByOrder (successesOf
                (fun g => if g.order_index ≤ 1 then .ok g else .error "boom")
                (truncatedGroups none
                  [{ segment_type := "topic_header", content_raw := "A", links := [], order_index := 0 },
                   { segment_type := "item", content_raw := "aaaaaaaaaaaa", links := [], order_index := 1 },
                   { segment_type := "topic_header", content_raw := "B", links := [], order_index := 2 },
                   { segment_type := "item", content_raw := "bbbbbbbbbbbb", links := [], order_index := 3 },
                   { segment_type := "topic_header", content_raw := "C", links := [], order_index := 4 },
                   { segment_type := "item", content_raw := "cccccccccccc", links := [], order_index := 5 },
                   { segment_type := "topic_header", content_raw := "D", links := [], order_index := 6 },
                   { segment_type := "item", content_raw := "dddddddddddd", links := [], order_index := 7 }]))).map groupVal
        ∧ (segRowsFor stF
              (resolveIssue { issues := [], topic_groups := [], segments := [], nextId := 0 }
                "t" "u" 0 none).2).map (fun r => r.seg)
            = ((sortByOrder (successesOf
                (fun g => if g.order_index ≤ 1 then .ok g else .error "boom")
                (truncatedGroups none
                  [{ segment_type := "topic_header", content_raw := "A", links := [], order_index := 0 },
                   { segment_type := "item", content_raw := "aaaaaaaaaaaa", links := [], order_index := 1 },
                   { segment_type := "topic_header", content_raw := "B", links := [], order_index := 2 },
                   { segment_type := "item", content_raw := "bbbbbbbbbbbb", links := [], order_index := 3 },
                   { segment_type := "topic_header", content_raw := "C", links := [], order_index := 4 },
                   { segment_type := "item", content_raw := "cccccccccccc", links := [], order_index := 5 },
                   { segment_type := "topic_header", content_raw := "D", links := [], order_index := 6 },
                   { segment_type := "item", content_raw := "dddddddddddd", links := [], order_index := 7 }]))).map
                (fun g => g.segments.map persistGuard)).flatten) :=
  ⟨⟨by decide,
    ((C1_failure_threshold { issues := [], topic_groups := [], segments := [], nextId := 0 }
        "t" "u" 0 none none _
        (fun g => if g.order_index = 0 then .ok g else .error "boom") 0 _ rfl _ rfl _ rfl).1
      (by decide)).1⟩,
   (C1_failure_threshold { issues := [], topic_groups := [], segments := [], nextId := 0 }
        "t" "u" 0 none none _
        (fun g => if g.order_index ≤ 1 then .ok g else .error "boom") 0 _ rfl _ rfl _ rfl).2
      (by decide)⟩

theorem updIssueMeta_url (title : String) (pub : Nat) (url : String) (r : IssueRow) :
    (updIssueMeta title pub url r).url = r.url := by
  unfold updIssueMeta
  by_cases h : (r.url == url) = true <;> simp [h]

theorem updIssueMeta_id (title : String) (pub : Nat) (url : String) (r : IssueRow) :
    (updIssueMeta title pub url r).id = r.id := by
  unfold updIssueMeta
  by_cases h : (r.url == url) = true <;> simp [h]

theorem resolveIssue_found (st : Store) (title url : String) (pub : Nat)
    (iid? : Option Nat) (r : IssueRow)
    (h : st.issues.find? (fun x => x.url == url) = some r) :
    resolveIssue st title url pub iid?
      = ({ st with issues := st.issues.map (updIssueMeta title pub url) }, r.id) := by
  cases iid? <;> simp [resolveIssue, h]

theorem resolveIssue_not_found (st : Store) (title url : String) (pub : Nat)
    (iid? : Option Nat) (h : st.issues.find? (fun x => x.url == url) = none) :
    (resolveIssue st title url pub iid?).1.issues
      = st.issues ++ [{ id := (resolveIssue st title url pub iid?).2, url := url,
                        title := title, published_at := pub }] := by
  cases iid? <;> simp [resolveIssue, h]

theorem find?_map_url (f : IssueRow → IssueRow) (hf : ∀ r, (f r).url = r.url) (url : String) :
    ∀ l : List IssueRow,
      (l.map f).find? (fun r => r.url == url) = (l.find? (fun r => r.url == url)).map f
  | [] => rfl
  | a :: l => by
    simp only [List.map_cons, List.find?_cons, hf]
    cases ha : (a.url == url) with
    | true => rfl
    | false => exact find?_map_url f hf url l

theorem find?_append_none (p : IssueRow → Bool) :
    ∀ l1 l2 : List IssueRow, l1.find? p = none → (l1 ++ l2).find? p = l2.find? p
  | [], _, _ => rfl
  | a :: l1, l2, h => by
    have ha : ¬p a = true := by
      intro hp
      rw [List.find?_cons_of_pos _ hp] at h
      simp at h
    rw [List.find?_cons_of_neg _ ha] at h
    rw [List.cons_append, List.find?_cons_of_neg _ ha]
    exact find?_append_none p l1 l2 h

theorem countUrl_map (f : IssueRow → IssueRow) (hf : ∀ r, (f r).url = r.url)
    (url : String) (l : List IssueRow) :
    ((l.map f).filter (fun r => r.url == url)).length
      = (l.filter (fun r => r.url == url)).length := by
  rw [List.filter_map]
  rw [List.length_map]
  have hpred : ((fun r : IssueRow => r.url == url) ∘ f) = (fun r : IssueRow => r.url == url) :=
    funext fun r => by simp [Function.comp, hf]
  rw [hpred]

theorem finishRun_issues (st1 : Store) (iid : Nat) (succ : List TopicGroup) (now : Nat) :
    (finishRun st1 iid succ now).issues
      = st1.issues.map
          (fun r => if r.id == iid then { r with processed_at := some now } else r) := by
  unfold finishRun markProcessed persistAll
  by_cases he : (sortByOrder succ).isEmpty
  · rw [if_pos he]
  · rw [if_neg he]

theorem markFun_url (iid now : Nat) (r : IssueRow) :
    (if r.id == iid then { r with processed_at := some now } else r).url = r.url := by
  by_cases h : (r.id == iid) = true <;> simp [h]

theorem markFun_id (iid now : Nat) (r : IssueRow) :
    (if r.id == iid then { r with processed_at := some now } else r).id = r.id := by
  by_cases h : (r.id == iid) = true <;> simp [h]

theorem afterDeletes_issues (st : Store) (iid : Nat) :
    (afterDeletes st iid).issues = st.issues := rfl

/-- After a successful run, the store holds a URL-keyed issue row whose id is
the returned identifier, and it is the first row found for that URL. -/
theorem run_ok_url_row (st : Store) (title url : String) (pub : Nat)
    (issue_id? : Option Nat) (max_groups? : Option Int) (segments_data : List Seg)
    (outcome : TopicGroup → Except String TopicGroup) (now : Nat)
    (stF : Store) (idF : Nat)
    (h : run_pipeline st title url pub issue_id? max_groups? segments_data outcome now
      = .ok (stF, idF)) :
    ∃ row, stF.issues.find? (fun r => r.url == url) = some row ∧ row.id = idF := by
  obtain ⟨hid, hstF⟩ := run_pipeline_ok_inv st title url pub issue_id? max_groups?
    segments_data outcome now stF idF h
  subst hstF hid
  cases hf : st.issues.find? (fun r => r.url == url) with
  | some r =>
    rw [resolveIssue_found st title url pub issue_id? r hf, finishRun_issues,
      afterDeletes_issues]
    dsimp only
    rw [find?_map_url _ (fun r' => markFun_url _ now r') url,
      find?_map_url _ (fun r' => updIssueMeta_url title pub url r') url, hf]
    exact ⟨_, rfl, by rw [markFun_id, updIssueMeta_id]⟩
  | none =>
    have hiss := resolveIssue_not_found st title url pub issue_id? hf
    rw [finishRun_issues, afterDeletes_issues, hiss,
      find?_map_url _ (fun r' => markFun_url _ now r') url, find?_append_none _ _ _ hf,
      List.find?_cons_of_pos _ (by simp)]
    exact ⟨_, rfl, by rw [markFun_id]⟩

/-- Claim C2: processing the same URL twice yields exactly one issue row for
that URL with the same identifier on both runs, and the second run's group
and segment rows fully replace the first run's (the issue's rows after the
second run are exactly the second run's successes and their segments, not an
accumulation); moreover, when the caller supplies an issue identifier but an
issue row for that URL already exists, the resolved identifier is the
existing row's, not the caller's. -/
theorem C2_idempotent_reingestion
    (st : Store) (url : String)
    (t1 : String) (p1 : Nat) (i1? : Option Nat) (k1? : Option Int) (sd1 : List Seg)
    (o1 : TopicGroup → Except String TopicGroup) (n1 : Nat)
    (t2 : String) (p2 : Nat) (i2? : Option Nat) (k2? : Option Int) (sd2 : List Seg)
    (o2 : TopicGroup → Except String TopicGroup) (n2 : Nat)
    (st1 stF : Store) (id1 id2 : Nat)
    (hcount : (st.issues.filter (fun r => r.url == url)).length ≤ 1)
    (h1 : run_pipeline st t1 url p1 i1? k1? sd1 o1 n1 = .ok (st1, id1))
    (h2 : run_pipeline st1 t2 url p2 i2? k2? sd2 o2 n2 = .ok (stF, id2)) :
    id2 = id1
      ∧ (stF.issues.filter (fun r => r.url == url)).length = 1
      ∧ (groupRowsFor stF id1).map groupProj
          = (sortByOrder (successesOf o2 (truncatedGroups k2? sd2))).map groupVal
      ∧ (segRowsFor stF id1).map (fun r => r.seg)
          = ((sortByOrder (successesOf o2 (truncatedGroups k2? sd2))).map
              (fun g => g.segments.map persistGuard)).flatten
      ∧ ∀ (iid : Nat) (r : IssueRow), st.issues.find? (fun x => x.url == url) = some r →
          (resolveIssue st t1 url p1 (some iid)).2 = r.id := by
  obtain ⟨row, hfind1, hrowid⟩ := run_ok_url_row st t1 url p1 i1? k1? sd1 o1 n1 st1 id1 h1
  obtain ⟨hid2, hstF⟩ := run_pipeline_ok_inv st1 t2 url p2 i2? k2? sd2 o2 n2 stF id2 h2
  have hres2 := resolveIssue_found st1 t2 url p2 i2? row hfind1
  have hid2v : (resolveIssue st1 t2 url p2 i2?).2 = id1 := by
    rw [hres2]
    exact hrowid
  have hid21 : id2 = id1 := by rw [hid2, hid2v]
  obtain ⟨hid1e, hst1⟩ := run_pipeline_ok_inv st t1 url p1 i1? k1? sd1 o1 n1 st1 id1 h1
  have hcount1 : (st1.issues.filter (fun r => r.url == url)).length = 1 := by
    rw [hst1, finishRun_issues, afterDeletes_issues]
    cases hf : st.issues.find? (fun x => x.url == url) with
    | some r0 =>
      rw [resolveIssue_found st t1 url p1 i1? r0 hf]
      dsimp only
      rw [countUrl_map _ (fun r' => markFun_url _ n1 r') url,
        countUrl_map _ (fun r' => updIssueMeta_url t1 p1 url r') url]
      have hp := (List.find?_eq_some.mp hf).1
      have hmem : r0 ∈ st.issues.filter (fun r => r.url == url) :=
        List.mem_filter.mpr ⟨List.mem_of_find?_eq_some hf, hp⟩
      have hpos : 0 < (st.issues.filter (fun r => r.url == url)).length :=
        List.length_pos.mpr (List.ne_nil_of_mem hmem)
      omega
    | none =>
      rw [resolveIssue_not_found st t1 url p1 i1? hf,
        countUrl_map _ (fun r' => markFun_url _ n1 r') url, List.filter_append]
      have hnil : st.issues.filter (fun r => r.url == url) = [] :=
        List.filter_eq_nil_iff.mpr (by
          intro a ha
          simpa using List.find?_eq_none.mp hf a ha)
      rw [hnil]
      simp
  have hcountF : (stF.issues.filter (fun r => r.url == url)).length = 1 := by
    rw [hstF, finishRun_issues, afterDeletes_issues, hres2]
    dsimp only
    rw [countUrl_map _ (fun r' => markFun_url _ n2 r') url,
      countUrl_map _ (fun r' => updIssueMeta_url t2 p2 url r') url]
    exact hcount1
  have hrows := finishRun_rows
      (afterDeletes (resolveIssue st1 t2 url p2 i2?).1 (resolveIssue st1 t2 url p2 i2?).2)
      (resolveIssue st1 t2 url p2 i2?).2
      (successesOf o2 (truncatedGroups k2? sd2)) n2
      (afterDeletes_group_rows _ _) (afterDeletes_seg_rows _ _)
  refine ⟨hid21, hcountF, ?_, ?_, ?_⟩
  · rw [hstF, ← hid2v]
    exact hrows.1
  · rw [hstF, ← hid2v]
    exact hrows.2
  · intro iid r hr
    rw [resolveIssue_found st t1 url p1 (some iid) r hr]

/-- Witness for C2 at concrete inputs: the same two-segment document is
processed twice against an initially empty store (the second time with a
caller-supplied identifier 99 that loses to the existing row's identifier
0); both runs return identifier 0, exactly one issue row for the URL
remains, and the issue's group rows are exactly the second run's. -/
theorem C2_idempotent_reingestion_witness :
    ∃ st1 stF : Store,
      run_pipeline { issues := [], topic_groups := [], segments := [], nextId := 0 }
          "t" "u" 0 none none
          [{ segment_type := "topic_header", content_raw := "A", links := [], order_index := 0 },
           { segment_type := "item", content_raw := "aaaaaaaaaaaa", links := [], order_index := 1 }]
          (fun g => .ok g) 0 = .ok (st1, 0)
      ∧ run_pipeline st1 "t" "u" 0 (some 99) none
          [{ segment_type := "topic_header", content_raw := "A", links := [], order_index := 0 },
           { segment_type := "item", content_raw := "aaaaaaaaaaaa", links := [], order_index := 1 }]
          (fun g => .ok g) 0 = .ok (stF, 0)
      ∧ (stF.issues.filter (fun r => r.url == "u")).length = 1
      ∧ (groupRowsFor stF 0).map groupProj
          = (sortByOrder (successesOf (fun g => .ok g)
              (truncatedGroups none
                [{ segment_type := "topic_header", content_raw := "A", links := [], order_index := 0 },
                 { segment_type := "item", content_raw := "aaaaaaaaaaaa", links := [], order_index := 1 }]))).map
              groupVal := by
  refine ⟨_, _, rfl, rfl, ?_, ?_⟩
  · exact (C2_idempotent_reingestion
      { issues := [], topic_groups := [], segments := [], nextId := 0 } "u"
      "t" 0 none none
      [{ segment_type := "topic_header", content_raw := "A", links := [], order_index := 0 },
       { segment_type := "item", content_raw := "aaaaaaaaaaaa", links := [], order_index := 1 }]
      (fun g => .ok g) 0
      "t" 0 (some 99) none
      [{ segment_type := "topic_header", content_raw := "A", links := [], order_index := 0 },
       { segment_type := "item", content_raw := "aaaaaaaaaaaa", links := [], order_index := 1 }]
      (fun g => .ok g) 0
      _ _ 0 0 (by decide) rfl rfl).2.1
  · exact (C2_idempotent_reingestion
      { issues := [], topic_groups := [], segments := [], nextId := 0 } "u"
      "t" 0 none none
      [{ segment_type := "topic_header", content_raw := "A", links := [], order_index := 0 },
       { segment_type := "item", content_raw := "aaaaaaaaaaaa", links := [], order_index := 1 }]
      (fun g => .ok g) 0
      "t" 0 (some 99) none
      [{ segment_type := "topic_header", content_raw := "A", links := [], order_index := 0 },
       { segment_type := "item", content_raw := "aaaaaaaaaaaa", links := [], order_index := 1 }]
      (fun g => .ok g) 0
      _ _ 0 0 (by decide) rfl rfl).2.2.1

theorem persistAll_rows (st1 : Store) (iid : Nat) (sorted : List TopicGroup)
    (hg : groupRowsFor st1 iid = []) (hs : segRowsFor st1 iid = []) :
    (groupRowsFor (persistAll st1 iid sorted) iid).map groupProj = sorted.map groupVal
      ∧ (segRowsFor (persistAll st1 iid sorted) iid).map (fun r => r.seg)
        = (sorted.map (fun g => g.segments.map persistGuard)).flatten := by
  unfold groupRowsFor at hg ⊢
  unfold segRowsFor at hs ⊢
  unfold persistAll
  by_cases he : sorted.isEmpty
  · rw [if_pos he, List.isEmpty_iff.mp he]
    exact ⟨by simp [hg], by simp [hs]⟩
  · rw [if_neg he]
    constructor
    · dsimp only
      rw [List.filter_append, hg, List.nil_append, mkGroupRows_filter_eq,
        mkGroupRows_map_proj]
    · dsimp only
      rw [List.filter_append, hs, List.nil_append, buildSegRows_filter_eq,
        buildSegRows_map_seg _ _ _
          (fun g hgmem => groupIdMap_isSome_of_mem iid st1.nextId _ g hgmem)]

theorem finishRunFallible_noFail (st : Store) (iid : Nat) (sorted : List TopicGroup)
    (now batchSize : Nat) :
    finishRunFallible st iid sorted now batchSize .noFail
      = .ok (markProcessed (persistAll st iid sorted) iid now) := by
  unfold finishRunFallible persistAll
  by_cases he : sorted.isEmpty
  · rw [if_pos he, if_neg (by decide), if_pos he]
  · rw [if_neg he, if_neg (by decide), if_neg he]

/-- With no storage failure the fallible model coincides with
`run_pipeline`. -/
theorem run_pipeline_fallible_noFail (st : Store) (title url : String) (pub : Nat)
    (issue_id? : Option Nat) (max_groups? : Option Int) (segments_data : List Seg)
    (outcome : TopicGroup → Except String TopicGroup) (now batchSize : Nat) :
    run_pipeline_fallible st title url pub issue_id? max_groups? segments_data outcome now
        batchSize .noFail
      = run_pipeline st title url pub issue_id? max_groups? segments_data outcome now := by
  simp only [run_pipeline_fallible, run_pipeline]
  by_cases hc : (failuresOf outcome (truncatedGroups max_groups? segments_data)).length ≠ 0
      ∧ (failuresOf outcome (truncatedGroups max_groups? segments_data)).length * 2
        > (truncatedGroups max_groups? segments_data).length
  · rw [if_pos hc, if_pos hc]
  · rw [if_neg hc, if_neg hc, finishRunFallible_noFail]
    rfl

theorem finishRunFallible_completionUpdate (st : Store) (iid : Nat)
    (sorted : List TopicGroup) (now batchSize : Nat) (hs : ¬sorted.isEmpty) :
    finishRunFallible st iid sorted now batchSize .completionUpdate
      = .error (storageMsg, persistAll st iid sorted) := by
  unfold finishRunFallible persistAll
  rw [if_neg hs, if_neg (by decide), if_neg hs]

/-- Claim C10 counterexample: a raise in the segment batch insert (the
source's line 347) happens after the group insert of line 315 committed, so
the erroring run leaves one group row — not zero — for the issue, with its
segment rows missing.  This refutes the claim's "(or from any later error)
the store is left with zero segment rows and zero group rows". -/
theorem C10_counterexample :
    run_pipeline_fallible { issues := [], topic_groups := [], segments := [], nextId := 0 }
        "t" "u" 0 none none
        [{ segment_type := "topic_header", content_raw := "A", links := [], order_index := 0 },
         { segment_type := "item", content_raw := "aaaaaaaaaaaa", links := [], order_index := 1 }]
        (fun g => .ok g) 0 100 (.segBatch 0)
      = .error (storageMsg,
          { issues := [{ id := 0, url := "u", title := "t", published_at := 0 }],
            topic_groups := [{ id := 1, issue_id := 0, label := "A", label_zh := none,
                               order_index := 0, is_section_header := false }],
            segments := [], nextId := 2 })
    ∧ groupRowsFor
        { issues := [{ id := 0, url := "u", title := "t", published_at := 0 }],
          topic_groups := [{ id := 1, issue_id := 0, label := "A", label_zh := none,
                             order_index := 0, is_section_header := false }],
          segments := [], nextId := 2 } 0 ≠ []
    ∧ segRowsFor
        { issues := [{ id := 0, url := "u", title := "t", published_at := 0 }],
          topic_groups := [{ id := 1, issue_id := 0, label := "A", label_zh := none,
                             order_index := 0, is_section_header := false }],
          segments := [], nextId := 2 } 0 = [] :=
  ⟨by rfl, by decide, by decide⟩

/-- Claim C10 (amended): the deletes of lines 112-114 run before any group
processing, so a raise under the failure-threshold policy — which happens
before any insert, whatever storage failure may be scheduled later — leaves
the store with zero group rows and zero segment rows for the issue: rows
from a prior successful run are neither retained nor restored.  An error
raised later in the run, after the group insert of line 315 committed (here
the completion update of line 351 failing; `C10_counterexample` shows a
failing segment batch insert likewise), instead leaves the issue's newly
inserted group rows in the store — non-zero whenever any group succeeded —
together with the already-inserted segment rows. -/
theorem C10_abort_not_atomic (st : Store) (title url : String) (pub : Nat)
    (issue_id? : Option Nat) (max_groups? : Option Int) (segments_data : List Seg)
    (outcome : TopicGroup → Except String TopicGroup) (now batchSize : Nat)
    (fail : StoreFail)
    (iid : Nat) (hiid : iid = (resolveIssue st title url pub issue_id?).2) :
    ((failuresOf outcome (truncatedGroups max_groups? segments_data)).length * 2
        > (truncatedGroups max_groups? segments_data).length →
      run_pipeline_fallible st title url pub issue_id? max_groups? segments_data outcome now
          batchSize fail
        = .error (tooManyMsg, afterDeletes (resolveIssue st title url pub issue_id?).1 iid)
        ∧ groupRowsFor (afterDeletes (resolveIssue st title url pub issue_id?).1 iid) iid = []
        ∧ segRowsFor (afterDeletes (resolveIssue st title url pub issue_id?).1 iid) iid = [])
    ∧ ((failuresOf outcome (truncatedGroups max_groups? segments_data)).length * 2
        ≤ (truncatedGroups max_groups? segments_data).length →
      sortByOrder (successesOf outcome (truncatedGroups max_groups? segments_data)) ≠ [] →
      ∃ st',
        run_pipeline_fallible st title url pub issue_id? max_groups? segments_data outcome now
            batchSize .completionUpdate
          = .error (storageMsg, st')
        ∧ (groupRowsFor st' iid).map groupProj
            = (sortByOrder (successesOf outcome (truncatedGroups max_groups? segments_data))).map
                groupVal
        ∧ groupRowsFor st' iid ≠ []
        ∧ (segRowsFor st' iid).map (fun r => r.seg)
            = ((sortByOrder (successesOf outcome (truncatedGroups max_groups? segments_data))).map
                (fun g => g.segments.map persistGuard)).flatten) := by
  subst hiid
  constructor
  · intro habort
    have hne : (failuresOf outcome (truncatedGroups max_groups? segments_data)).length ≠ 0 := by
      intro h0
      rw [h0] at habort
      omega
    refine ⟨?_, afterDeletes_group_rows _ _, afterDeletes_seg_rows _ _⟩
    simp only [run_pipeline_fallible]
    rw [if_pos ⟨hne, habort⟩]
  · intro hcont hsne
    have hsne' : ¬(sortByOrder (successesOf outcome
        (truncatedGroups max_groups? segments_data))).isEmpty := by
      simpa [List.isEmpty_iff] using hsne
    have hrows := persistAll_rows
      (afterDeletes (resolveIssue st title url pub issue_id?).1
        (resolveIssue st title url pub issue_id?).2)
      (resolveIssue st title url pub issue_id?).2
      (sortByOrder (successesOf outcome (truncatedGroups max_groups? segments_data)))
      (afterDeletes_group_rows _ _) (afterDeletes_seg_rows _ _)
    refine ⟨_, ?_, hrows.1, ?_, hrows.2⟩
    · simp only [run_pipeline_fallible]
      rw [if_neg (fun hc => absurd hc.2 (by omega)),
        finishRunFallible_completionUpdate _ _ _ _ _ hsne']
    · intro h0
      have h1 := hrows.1
      rw [h0] at h1
      simp only [List.map_nil] at h1
      apply hsne
      cases hcase : sortByOrder (successesOf outcome
          (truncatedGroups max_groups? segments_data)) with
      | nil => rfl
      | cons a t =>
        rw [hcase] at h1
        simp at h1

/-- Witness for the amended C10 at a concrete input: one group succeeds, the
completion update raises, and the erroring run leaves the group's row (and
its segment row) in the store — the full non-empty inserted payload. -/
theorem C10_abort_not_atomic_witness :
    ∃ st',
      run_pipeline_fallible { issues := [], topic_groups := [], segments := [], nextId := 0 }
          "t" "u" 0 none none
          [{ segment_type := "topic_header", content_raw := "A", links := [], order_index := 0 },
           { segment_type := "item", content_raw := "aaaaaaaaaaaa", links := [], order_index := 1 }]
          (fun g => .ok g) 0 100 .completionUpdate
        = .error (storageMsg, st')
      ∧ (groupRowsFor st'
            (resolveIssue { issues := [], topic_groups := [], segments := [], nextId := 0 }
              "t" "u" 0 none).2).map groupProj
          = (sortByOrder (successesOf (fun g => .ok g)
              (truncatedGroups none
                [{ segment_type := "topic_header", content_raw := "A", links := [], order_index := 0 },
                 { segment_type := "item", content_raw := "aaaaaaaaaaaa", links := [], order_index := 1 }]))).map
              groupVal
      ∧ groupRowsFor st'
          (resolveIssue { issues := [], topic_groups := [], segments := [], nextId := 0 }
            "t" "u" 0 none).2 ≠ []
      ∧ (segRowsFor st'
            (resolveIssue { issues := [], topic_groups := [], segments := [], nextId := 0 }
              "t" "u" 0 none).2).map (fun r => r.seg)
          = ((sortByOrder (successesOf (fun g => .ok g)
              (truncatedGroups none
                [{ segment_type := "topic_header", content_raw := "A", links := [], order_index := 0 },
                 { segment_type := "item", content_raw := "aaaaaaaaaaaa", links := [], order_index := 1 }]))).map
              (fun g => g.segments.map persistGuard)).flatten :=
  (C10_abort_not_atomic { issues := [], topic_groups := [], segments := [], nextId := 0 }
      "t" "u" 0 none none
      [{ segment_type := "topic_header", content_raw := "A", links := [], order_index := 0 },
       { segment_type := "item", content_raw := "aaaaaaaaaaaa", links := [], order_index := 1 }]
      (fun g => .ok g) 0 100 .completionUpdate _ rfl).2 (by decide) (by decide)
